import Mathlib

/-!
# Deimos Cipher web interface: the Node.js addon binding

A shallow embedding of `Deimos-Cipher-UI/BackEnd/src/addon/binding.cc` and the
properties its specification states about it.

* Bytes (`uint8_t`, `char`) and UTF-16 code units are natural numbers; a
  `std::string`, a `std::vector<uint8_t>` and the backing store of an
  `ArrayBuffer` are lists of bytes, a host string is a list of code units.
* The Node-API calls the binding makes (`Utf8Value`, `String::New`,
  `Uint8Array::New`, `Error::New`, `Object::Set`) are modelled by what they do
  to these values.
* A call of an exported function yields the value handed back to the host, the
  host exception left pending, and the list of engine calls made on the way.
* `deimosCipherEncrypt` / `deimosCipherDecrypt` are declared in
  `deimos_cipher.h`, which is not part of the available source: the binding is
  parameterised by them (`Engine`).
-/

namespace Deimos

/-! ## Host and C++ data -/

/-- Contents of a `std::string`: a sequence of bytes. -/
abbrev CppString := List Nat

/-- Contents of a `std::vector<uint8_t>`. -/
abbrev CppVector := List Nat

/-- A host (JavaScript) string: a sequence of UTF-16 code units. -/
abbrev JsString := List Nat

/-- The enumeration `napi_typedarray_type`. -/
inductive TypedArrayType
  | napi_int8_array
  | napi_uint8_array
  | napi_uint8_clamped_array
  | napi_int16_array
  | napi_uint16_array
  | napi_int32_array
  | napi_uint32_array
  | napi_float32_array
  | napi_float64_array
  | napi_bigint64_array
  | napi_biguint64_array
  deriving DecidableEq, Repr

/-- Size in bytes of one element of a typed array of the given type. -/
def TypedArrayType.elementSize : TypedArrayType → Nat
  | .napi_int8_array => 1
  | .napi_uint8_array => 1
  | .napi_uint8_clamped_array => 1
  | .napi_int16_array => 2
  | .napi_uint16_array => 2
  | .napi_int32_array => 4
  | .napi_uint32_array => 4
  | .napi_float32_array => 4
  | .napi_float64_array => 8
  | .napi_bigint64_array => 8
  | .napi_biguint64_array => 8

/-- A typed array: a view of `length` elements starting `byteOffset` bytes into
the backing store `buffer` of its `ArrayBuffer`. -/
structure TypedArray where
  type : TypedArrayType
  buffer : List Nat
  byteOffset : Nat
  length : Nat
  deriving DecidableEq, Repr

/-- The pointer `Data()`: the backing store from the view's first byte on. -/
def TypedArray.Data (a : TypedArray) : List Nat := a.buffer.drop a.byteOffset

/-- The count `ByteLength()`: element count times element size. -/
def TypedArray.ByteLength (a : TypedArray) : Nat := a.length * a.type.elementSize

/-- The bytes the host sees through the view: byte `i` of the view is byte
`byteOffset + i` of the backing store, for `i` below the byte length. -/
def TypedArray.contents (a : TypedArray) : List Nat :=
  (List.range a.ByteLength).map (fun i => a.buffer.getD (a.byteOffset + i) 0)

/-- A view the host can build: it lies inside its backing store. -/
def TypedArray.InBounds (a : TypedArray) : Prop :=
  a.byteOffset + a.ByteLength ≤ a.buffer.length

instance (a : TypedArray) : Decidable a.InBounds :=
  inferInstanceAs (Decidable (a.byteOffset + a.ByteLength ≤ a.buffer.length))

/-- The native functions the module registers. -/
inductive NativeCallback
  | Encrypt
  | Decrypt
  deriving DecidableEq, Repr

/-- Host values, as far as the binding can tell them apart. -/
inductive JsValue
  | undefined
  | null
  | boolean (b : Bool)
  | number (bits : Nat)
  | bigint (n : Int)
  | string (s : JsString)
  | symbol (id : Nat)
  | object (id : Nat)
  | function (cb : NativeCallback)
  | typedArray (a : TypedArray)
  deriving DecidableEq, Repr

/-- The test `Napi::Value::IsString`. -/
def JsValue.IsString : JsValue → Bool
  | .string _ => true
  | _ => false

/-- The test `Napi::Value::IsTypedArray`. -/
def JsValue.IsTypedArray : JsValue → Bool
  | .typedArray _ => true
  | _ => false

/-- The query `Napi::TypedArray::TypedArrayType`, defined on typed arrays. -/
def JsValue.TypedArrayType : JsValue → Option TypedArrayType
  | .typedArray a => some a.type
  | _ => none

/-- Arguments of a call: `Napi::CallbackInfo`. -/
abbrev CallbackInfo := List JsValue

/-- The count `info.Length()`. -/
def CallbackInfo.Length (info : CallbackInfo) : Nat := List.length info

/-- The access `info[i]`: the i-th argument, `undefined` past the end. -/
def CallbackInfo.at (info : CallbackInfo) (i : Nat) : JsValue := List.getD info i JsValue.undefined

/-- Class of a host exception object. -/
inductive ErrorClass
  | Error
  | TypeError
  deriving DecidableEq, Repr

/-- A host exception: its class and its `message`. -/
structure HostError where
  cls : ErrorClass
  message : JsString
  deriving DecidableEq, Repr

/-- A C++ exception in flight: one derived from `std::exception`, with the
bytes `what()` points to, or an object of any other type. -/
inductive Thrown
  | std_exception (what : CppString)
  | other
  deriving DecidableEq, Repr

/-- How a call into C++ code ends: it returns a value or throws. -/
inductive CallResult (α : Type)
  | returned (v : α)
  | threw (t : Thrown)
  deriving DecidableEq, Repr

/-! ## Text conversion between the host and C++ -/

/-- Code unit of the first half of a surrogate pair. -/
def isLeadSurrogate (u : Nat) : Bool := decide (0xD800 ≤ u) && decide (u ≤ 0xDBFF)

/-- Code unit of the second half of a surrogate pair. -/
def isTrailSurrogate (u : Nat) : Bool := decide (0xDC00 ≤ u) && decide (u ≤ 0xDFFF)

/-- UTF-8 bytes of one code point. -/
def utf8EncodeCodePoint (c : Nat) : List Nat :=
  if c < 0x80 then [c]
  else if c < 0x800 then [0xC0 + c / 64, 0x80 + c % 64]
  else if c < 0x10000 then [0xE0 + c / 4096, 0x80 + c / 64 % 64, 0x80 + c % 64]
  else [0xF0 + c / 262144, 0x80 + c / 4096 % 64, 0x80 + c / 64 % 64, 0x80 + c % 64]

/-- UTF-8 bytes of U+FFFD, the replacement character. -/
def replacementUtf8 : List Nat := [0xEF, 0xBF, 0xBD]

/-- The conversion `Napi::String::Utf8Value`: the host string as UTF-8. A
surrogate pair becomes one four-byte sequence; a surrogate that is not part of
a pair is written as U+FFFD. -/
def Utf8Value : JsString → CppString
  | [] => []
  | u :: rest =>
    if isLeadSurrogate u then
      match rest with
      | v :: rest2 =>
        if isTrailSurrogate v then
          utf8EncodeCodePoint (0x10000 + (u - 0xD800) * 1024 + (v - 0xDC00)) ++ Utf8Value rest2
        else replacementUtf8 ++ Utf8Value (v :: rest2)
      | [] => replacementUtf8
    else if isTrailSurrogate u then replacementUtf8 ++ Utf8Value rest
    else utf8EncodeCodePoint u ++ Utf8Value rest

/-- A UTF-8 continuation byte. -/
def isContinuation (b : Nat) : Bool := decide (0x80 ≤ b) && decide (b ≤ 0xBF)

/-- UTF-16 code units of one code point. -/
def utf16Units (c : Nat) : List Nat :=
  if c < 0x10000 then [c]
  else [0xD800 + (c - 0x10000) / 1024, 0xDC00 + (c - 0x10000) % 1024]

/-- The decoding of `v8::String::NewFromUtf8`: the bytes decoded as UTF-8 into
a host string. Every maximal ill-formed part of the input becomes one
U+FFFD. -/
def NewFromUtf8 : CppString → JsString
  | [] => []
  | b0 :: rest =>
    if b0 < 0x80 then b0 :: NewFromUtf8 rest
    else if 0xC2 ≤ b0 ∧ b0 ≤ 0xDF then
      match rest with
      | b1 :: r1 =>
        if isContinuation b1 then ((b0 - 0xC0) * 64 + (b1 - 0x80)) :: NewFromUtf8 r1
        else 0xFFFD :: NewFromUtf8 (b1 :: r1)
      | [] => [0xFFFD]
    else if 0xE0 ≤ b0 ∧ b0 ≤ 0xEF then
      match rest with
      | b1 :: r1 =>
        if (if b0 = 0xE0 then 0xA0 else 0x80) ≤ b1 ∧ b1 ≤ (if b0 = 0xED then 0x9F else 0xBF) then
          match r1 with
          | b2 :: r2 =>
            if isContinuation b2 then
              ((b0 - 0xE0) * 4096 + (b1 - 0x80) * 64 + (b2 - 0x80)) :: NewFromUtf8 r2
            else 0xFFFD :: NewFromUtf8 (b2 :: r2)
          | [] => [0xFFFD]
        else 0xFFFD :: NewFromUtf8 (b1 :: r1)
      | [] => [0xFFFD]
    else if 0xF0 ≤ b0 ∧ b0 ≤ 0xF4 then
      match rest with
      | b1 :: r1 =>
        if (if b0 = 0xF0 then 0x90 else 0x80) ≤ b1 ∧ b1 ≤ (if b0 = 0xF4 then 0x8F else 0xBF) then
          match r1 with
          | b2 :: r2 =>
            if isContinuation b2 then
              match r2 with
              | b3 :: r3 =>
                if isContinuation b3 then
                  utf16Units ((b0 - 0xF0) * 262144 + (b1 - 0x80) * 4096 + (b2 - 0x80) * 64
                      + (b3 - 0x80))
                    ++ NewFromUtf8 r3
                else 0xFFFD :: NewFromUtf8 (b3 :: r3)
              | [] => [0xFFFD]
            else 0xFFFD :: NewFromUtf8 (b2 :: r2)
          | [] => [0xFFFD]
        else 0xFFFD :: NewFromUtf8 (b1 :: r1)
      | [] => [0xFFFD]
    else 0xFFFD :: NewFromUtf8 rest

/-- Bytes of a string literal of the source (UTF-8, without the terminator). -/
def cstr (s : String) : CppString :=
  (s.toList.map (fun c => utf8EncodeCodePoint c.toNat)).flatten

/-- The longest host string: V8's `String::kMaxLength` on 64-bit builds,
2^29 - 24. -/
def kMaxLength : Nat := 536870888

/-- The constant `INT_MAX`, the longest input Node-API accepts for a string. -/
def INT_MAX : Nat := 2147483647

/-- The constructor `Napi::String::New(env, std::string)`: the bytes decoded as
UTF-8 into a host string. Node-API refuses more than `INT_MAX` bytes ("Invalid
argument"), V8 refuses more bytes than the longest host string has code units
("Unknown failure"); either way a `Napi::Error`, a `std::exception`, is
thrown. -/
def StringNew (val : CppString) : CallResult JsString :=
  if INT_MAX < val.length then .threw (.std_exception (cstr "Invalid argument"))
  else if kMaxLength < val.length then .threw (.std_exception (cstr "Unknown failure"))
  else .returned (NewFromUtf8 val)

/-- A host string in which every surrogate is half of a pair (and every code
unit fits in 16 bits). -/
def wellFormedUtf16 : JsString → Bool
  | [] => true
  | u :: rest =>
    if isLeadSurrogate u then
      match rest with
      | v :: rest2 => isTrailSurrogate v && wellFormedUtf16 rest2
      | [] => false
    else if isTrailSurrogate u then false
    else decide (u < 0x10000) && wellFormedUtf16 rest

/-- The C string a `const char*` denotes: the bytes before the first NUL. -/
def cString (p : CppString) : CppString := p.takeWhile (fun b => b != 0)

/-- The constructor `Napi::String::New(env, const char*)`, for the short C
strings the binding passes it: property names and exception messages. -/
def StringNewC (p : CppString) : JsString := NewFromUtf8 (cString p)

/-- The constructor `Napi::Error::New(env, const char* message)`. -/
def ErrorNew (message : CppString) : HostError := ⟨ErrorClass.Error, StringNewC message⟩

/-- The constructor `Napi::TypeError::New(env, const char* message)`. -/
def TypeErrorNew (message : CppString) : HostError := ⟨ErrorClass.TypeError, StringNewC message⟩

/-! ## Byte-buffer marshalling -/

/-- The constructor `Napi::Uint8Array::New(env, n)`: a fresh zero-filled buffer
of `n` bytes, viewed whole. -/
def Uint8ArrayNew (n : Nat) : TypedArray :=
  ⟨TypedArrayType.napi_uint8_array, List.replicate n 0, 0, n⟩

/-- The call `memcpy(dest, src, n)`: the memory at `dest` after the first `n`
bytes at `src` have been copied over it. -/
def memcpy (dest src : List Nat) (n : Nat) : List Nat := src.take n ++ dest.drop n

/-- A typed array after `f` has rewritten the memory at `Data()`. -/
def TypedArray.storeAtData (a : TypedArray) (f : List Nat → List Nat) : TypedArray :=
  ⟨a.type, a.buffer.take a.byteOffset ++ f a.Data, a.byteOffset, a.length⟩

/-- Convert a JavaScript string to std::string. Called on a value that is not
a string, `Utf8Value` fails and a `Napi::Error` (a `std::exception`) is
thrown. -/
def JsStringToCpp : JsValue → CallResult CppString
  | .string s => .returned (Utf8Value s)
  | _ => .threw (.std_exception (cstr "A string was expected"))

/-- Convert a std::vector<uint8_t> to a JavaScript Uint8Array. -/
def CppVectorToJs (vec : CppVector) : TypedArray :=
  let result := Uint8ArrayNew vec.length
  result.storeAtData (fun dest => memcpy dest vec vec.length)

/-- Convert JavaScript Uint8Array to std::vector<uint8_t>: the range from
`Data()` to `Data() + ByteLength()`. -/
def JsUint8ArrayToCpp (array : TypedArray) : CppVector :=
  array.Data.take array.ByteLength

/-- The cast `info[i].As<Napi::Uint8Array>()`, meaningful on typed arrays. -/
def AsUint8Array : JsValue → CallResult TypedArray
  | .typedArray a => .returned a
  | _ => .threw (.std_exception (cstr "Invalid argument"))

/-! ## The engine behind the binding -/

/-- The two routines declared in `deimos_cipher.h`. Their definitions are not
in the available source; the binding is stated for any pair of them. -/
structure Engine where
  deimosCipherEncrypt : CppString → CppString → CallResult CppVector
  deimosCipherDecrypt : CppVector → CppString → CallResult CppString

/-- One call into the engine, with the arguments it received. -/
inductive EngineCall
  | encrypt (plaintext password : CppString)
  | decrypt (ciphertext : CppVector) (password : CppString)
  deriving DecidableEq, Repr

/-- What the host observes of one call of an exported function: the exception
left pending, the value returned, and the engine calls made. -/
structure CallOutcome where
  pending : Option HostError
  value : JsValue
  engineCalls : List EngineCall
  deriving DecidableEq, Repr

/-- The `try` block of an exported function: it ends by returning a value or
by a C++ exception, after possibly leaving a host exception pending and
calling the engine. -/
structure TryOutcome where
  result : CallResult JsValue
  pending : Option HostError
  engineCalls : List EngineCall

/-! ## The exported functions -/

/-- The argument check of `Encrypt`. -/
def EncryptRejects (info : CallbackInfo) : Bool :=
  decide (info.Length < 2) || !(info.at 0).IsString || !(info.at 1).IsString

/-- The `try` block of `Encrypt`. -/
def EncryptTry (eng : Engine) (info : CallbackInfo) : TryOutcome :=
  if EncryptRejects info then
    ⟨.returned .null, some (TypeErrorNew (cstr "Expected two strings (plaintext, password)")), []⟩
  else
    match JsStringToCpp (info.at 0) with
    | .threw t => ⟨.threw t, none, []⟩
    | .returned plaintext =>
      match JsStringToCpp (info.at 1) with
      | .threw t => ⟨.threw t, none, []⟩
      | .returned password =>
        match eng.deimosCipherEncrypt plaintext password with
        | .threw t => ⟨.threw t, none, [.encrypt plaintext password]⟩
        | .returned ciphertext =>
          ⟨.returned (.typedArray (CppVectorToJs ciphertext)), none,
            [.encrypt plaintext password]⟩

/-- The `catch` clauses of `Encrypt`: the host exception raised for a C++
exception that left the `try` block. -/
def EncryptCatch : Thrown → HostError
  | .std_exception what => ErrorNew what
  | .other => ErrorNew (cstr "Unknown error in encryption")

/-- Node.js wrapper for encryption. -/
def Encrypt (eng : Engine) (info : CallbackInfo) : CallOutcome :=
  match EncryptTry eng info with
  | ⟨.returned v, pending, calls⟩ => ⟨pending, v, calls⟩
  | ⟨.threw t, _, calls⟩ => ⟨some (EncryptCatch t), .null, calls⟩

/-- The argument check of `Decrypt`. -/
def DecryptRejects (info : CallbackInfo) : Bool :=
  decide (info.Length < 2) || !(info.at 0).IsTypedArray ||
    (info.at 0).TypedArrayType != some TypedArrayType.napi_uint8_array ||
    !(info.at 1).IsString

/-- The `try` block of `Decrypt`. -/
def DecryptTry (eng : Engine) (info : CallbackInfo) : TryOutcome :=
  if DecryptRejects info then
    ⟨.returned .null,
      some (TypeErrorNew (cstr "Expected (ciphertext Uint8Array, password string)")), []⟩
  else
    match AsUint8Array (info.at 0) with
    | .threw t => ⟨.threw t, none, []⟩
    | .returned array =>
      let ciphertext := JsUint8ArrayToCpp array
      match JsStringToCpp (info.at 1) with
      | .threw t => ⟨.threw t, none, []⟩
      | .returned password =>
        match eng.deimosCipherDecrypt ciphertext password with
        | .threw t => ⟨.threw t, none, [.decrypt ciphertext password]⟩
        | .returned plaintext =>
          match StringNew plaintext with
          | .threw t => ⟨.threw t, none, [.decrypt ciphertext password]⟩
          | .returned str => ⟨.returned (.string str), none, [.decrypt ciphertext password]⟩

/-- The `catch` clauses of `Decrypt`. -/
def DecryptCatch : Thrown → HostError
  | .std_exception what => ErrorNew what
  | .other => ErrorNew (cstr "Unknown error in decryption")

/-- Node.js wrapper for decryption. -/
def Decrypt (eng : Engine) (info : CallbackInfo) : CallOutcome :=
  match DecryptTry eng info with
  | ⟨.returned v, pending, calls⟩ => ⟨pending, v, calls⟩
  | ⟨.threw t, _, calls⟩ => ⟨some (DecryptCatch t), .null, calls⟩

/-! ## Module initialization -/

/-- A host object: its own properties, in insertion order. -/
abbrev JsObject := List (JsString × JsValue)

/-- The call `Object::Set(key, value)`: the property is overwritten where it
exists and appended where it does not. -/
def JsObject.Set : JsObject → JsString → JsValue → JsObject
  | [], key, value => [(key, value)]
  | (k, v) :: rest, key, value =>
    if k = key then (k, value) :: rest else (k, v) :: JsObject.Set rest key value

/-- The call `Object::Get(key)`. -/
def JsObject.Get : JsObject → JsString → Option JsValue
  | [], _ => none
  | (k, v) :: rest, key => if k = key then some v else JsObject.Get rest key

/-- The library set-up calls `Init` makes. -/
inductive LibraryCall
  | sodium_init
  | OpenSSL_add_all_algorithms
  deriving DecidableEq, Repr

/-- What module initialization leaves behind: the pending host exception, the
exports object returned, and the library calls made. -/
structure InitOutcome where
  pending : Option HostError
  exports : JsObject
  libraryCalls : List LibraryCall
  deriving DecidableEq, Repr

/-- Module initialization, given the value `sodium_init()` returns. -/
def Init (sodium_init : Int) (exports : JsObject) : InitOutcome :=
  if sodium_init = -1 then
    ⟨some (ErrorNew (cstr "Failed to initialize libsodium")), exports, [.sodium_init]⟩
  else
    ⟨none,
      (exports.Set (StringNewC (cstr "encrypt")) (.function .Encrypt)).Set
        (StringNewC (cstr "decrypt")) (.function .Decrypt),
      [.sodium_init, .OpenSSL_add_all_algorithms]⟩

/-! ## The cipher engine, as the specification designs it

The definitions of `deimosCipherEncrypt` and `deimosCipherDecrypt` are not in
the available source. For the round trip through both exported functions the
engine is modelled from the specification's design (sections 4.1 to 4.4): a
key derivation, two authenticated-encryption layers applied in the order A, B,
and an envelope of fixed-width fields before the payload. The primitives, the
field widths and the version value are left open by the specification and are
parameters here. -/

/-- Modelled from the spec: the three conditions the specification lists for a
failing decrypt (sections 6 and 7). The engine header that would declare them
is not in the available source. -/
inductive DecryptFailure
  | MalformedEnvelope
  | UnsupportedVersion
  | AuthenticationFailed
  deriving DecidableEq, Repr

/-- Modelled from the spec: the name the specification gives a condition (the
engine's source is missing). -/
def DecryptFailure.name : DecryptFailure → String
  | .MalformedEnvelope => "MalformedEnvelope"
  | .UnsupportedVersion => "UnsupportedVersion"
  | .AuthenticationFailed => "AuthenticationFailed"

/-- Modelled from the spec: what the engine is built from and the
specification leaves open (the engine's source is missing): the version
value, the widths of the envelope's fixed fields, the key derivation
`derive(password, salt, purpose)` of section 4.1, and for each layer the pair
`seal(plaintext, key, nonce, associated_data) -> (ciphertext, tag)` and
`open(ciphertext, key, nonce, tag, associated_data) -> plaintext` (or nothing,
on a tag mismatch) of section 4.2. -/
structure CipherSuite where
  version : Nat
  saltLen : Nat
  nonceALen : Nat
  nonceBLen : Nat
  tagALen : Nat
  tagBLen : Nat
  derive : List Nat → List Nat → Nat → List Nat
  sealA : List Nat → List Nat → List Nat → List Nat → List Nat × List Nat
  openA : List Nat → List Nat → List Nat → List Nat → List Nat → Option (List Nat)
  sealB : List Nat → List Nat → List Nat → List Nat → List Nat × List Nat
  openB : List Nat → List Nat → List Nat → List Nat → List Nat → Option (List Nat)

/-- Modelled from the spec: the fresh random values of one encryption (the
engine's source is missing): the salt and the two nonces (section 4.4, step 1
of `encrypt`). -/
structure Entropy where
  salt : List Nat
  nonceA : List Nat
  nonceB : List Nat

/-- Modelled from the spec: the fields of an envelope (the engine's source is
missing), section 4.3. -/
structure EnvelopeFields where
  version : Nat
  salt : List Nat
  nonceA : List Nat
  nonceB : List Nat
  tagA : List Nat
  tagB : List Nat
  payload : List Nat
  deriving DecidableEq, Repr

/-- Modelled from the spec: `encode` of section 4.3 (the engine's source is
missing), the layout
`[version:1][salt:N][nonce_A:n1][nonce_B:n2][tag_A:t1][tag_B:t2][payload]`. -/
def encode (f : EnvelopeFields) : List Nat :=
  f.version :: (f.salt ++ (f.nonceA ++ (f.nonceB ++ (f.tagA ++ (f.tagB ++ f.payload)))))

/-- Modelled from the spec: the minimum envelope size (the engine's source is
missing), version, salt, nonces and tags. -/
def CipherSuite.minSize (suite : CipherSuite) : Nat :=
  1 + suite.saltLen + suite.nonceALen + suite.nonceBLen + suite.tagALen + suite.tagBLen

/-- Modelled from the spec: `decode` of section 4.3 (the engine's source is
missing). A blob shorter than the minimum size is a MalformedEnvelope, an
unknown version an UnsupportedVersion; otherwise the fields are sliced in
order. -/
def decode (suite : CipherSuite) (blob : List Nat) : Except DecryptFailure EnvelopeFields :=
  if blob.length < suite.minSize then .error .MalformedEnvelope
  else if blob.headD 0 ≠ suite.version then .error .UnsupportedVersion
  else
    let r0 := blob.drop 1
    let r1 := r0.drop suite.saltLen
    let r2 := r1.drop suite.nonceALen
    let r3 := r2.drop suite.nonceBLen
    let r4 := r3.drop suite.tagALen
    .ok ⟨blob.headD 0, r0.take suite.saltLen, r1.take suite.nonceALen, r2.take suite.nonceBLen,
      r3.take suite.tagALen, r4.take suite.tagBLen, r4.drop suite.tagBLen⟩

/-- Modelled from the spec: the associated data of a layer (the engine's
source is missing): the envelope's version and the other layer's nonce
(section 4.2). -/
def associatedData (version : Nat) (otherNonce : List Nat) : List Nat := version :: otherNonce

/-- Modelled from the spec: `encrypt(plaintext, password)` of section 4.4 (the
engine's source is missing): derive the two keys, seal under layer A, seal the
result under layer B, encode the envelope. -/
def engineEncrypt (suite : CipherSuite) (ent : Entropy) (plaintext password : List Nat) :
    List Nat :=
  let keyA := suite.derive password ent.salt 0
  let keyB := suite.derive password ent.salt 1
  let a := suite.sealA plaintext keyA ent.nonceA (associatedData suite.version ent.nonceB)
  let b := suite.sealB a.1 keyB ent.nonceB (associatedData suite.version ent.nonceA)
  encode ⟨suite.version, ent.salt, ent.nonceA, ent.nonceB, a.2, b.2, b.1⟩

/-- Modelled from the spec: `decrypt(blob, password)` of section 4.4 (the
engine's source is missing): decode the envelope, derive the same two keys
from the embedded salt, open layer B, then layer A; a tag mismatch at either
layer is an AuthenticationFailed. -/
def engineDecrypt (suite : CipherSuite) (blob password : List Nat) :
    Except DecryptFailure (List Nat) :=
  match decode suite blob with
  | .error e => .error e
  | .ok f =>
    let keyA := suite.derive password f.salt 0
    let keyB := suite.derive password f.salt 1
    match suite.openB f.payload keyB f.nonceB f.tagB (associatedData f.version f.nonceA) with
    | none => .error .AuthenticationFailed
    | some inner =>
      match suite.openA inner keyA f.nonceA f.tagA (associatedData f.version f.nonceB) with
      | none => .error .AuthenticationFailed
      | some plaintext => .ok plaintext

/-- Modelled from the spec: the pair `deimosCipherEncrypt`,
`deimosCipherDecrypt` of the missing `deimos_cipher.h` as the specification's
engine; a failing decrypt throws a `std::exception` whose message names the
condition. -/
def specEngine (suite : CipherSuite) (ent : Entropy) : Engine :=
  ⟨fun plaintext password => .returned (engineEncrypt suite ent plaintext password),
    fun ciphertext password =>
      match engineDecrypt suite ciphertext password with
      | .ok plaintext => .returned plaintext
      | .error e => .threw (.std_exception (cstr e.name))⟩

/-- Modelled from the spec: what the specification requires of the primitives
(the engine's source is missing): each layer's `open` undoes its `seal`, and
tags have the fixed width of their envelope field. -/
structure CipherSuite.Sound (suite : CipherSuite) : Prop where
  openA_sealA : ∀ p k n ad,
    suite.openA (suite.sealA p k n ad).1 k n (suite.sealA p k n ad).2 ad = some p
  openB_sealB : ∀ p k n ad,
    suite.openB (suite.sealB p k n ad).1 k n (suite.sealB p k n ad).2 ad = some p
  tagA_length : ∀ p k n ad, (suite.sealA p k n ad).2.length = suite.tagALen
  tagB_length : ∀ p k n ad, (suite.sealB p k n ad).2.length = suite.tagBLen

/-- Modelled from the spec: salt and nonces of the widths the suite fixes (the
engine's source is missing). -/
structure Entropy.Fits (ent : Entropy) (suite : CipherSuite) : Prop where
  salt_length : ent.salt.length = suite.saltLen
  nonceA_length : ent.nonceA.length = suite.nonceALen
  nonceB_length : ent.nonceB.length = suite.nonceBLen

/-- Modelled from the spec: the round-trip contract the specification states
for the engine (section 8; the engine's source is missing): encrypt returns an
envelope, and decrypt of that envelope under the same password returns the
plaintext. -/
def Engine.Inverts (eng : Engine) : Prop :=
  ∀ plaintext password, ∃ envelope,
    eng.deimosCipherEncrypt plaintext password = .returned envelope ∧
    eng.deimosCipherDecrypt envelope password = .returned plaintext

/-! ## Sample engines -/

/-- A keyed checksum: the tag of the sample layers. -/
def sampleTag (c k n ad : List Nat) : List Nat := [(c.sum + k.sum + n.sum + ad.sum) % 256]

/-- A sample layer `seal`: exclusive-or with the key sum, tagged with the
checksum. -/
def sampleSeal (p k n ad : List Nat) : List Nat × List Nat :=
  (p.map (fun b => b ^^^ k.sum), sampleTag (p.map (fun b => b ^^^ k.sum)) k n ad)

/-- The `open` that goes with `sampleSeal`. -/
def sampleOpen (c k n tag ad : List Nat) : Option (List Nat) :=
  if tag = sampleTag c k n ad then some (c.map (fun b => b ^^^ k.sum)) else none

/-- A sample suite: one-byte salt, two-byte nonces, one-byte tags, version 1. -/
def sampleSuite : CipherSuite :=
  ⟨1, 1, 2, 2, 1, 1, fun password salt purpose => [(password.sum + salt.sum + purpose) % 256],
    sampleSeal, sampleOpen, sampleSeal, sampleOpen⟩

/-- Sample random values for `sampleSuite`. -/
def sampleEntropy : Entropy := ⟨[0x5A], [1, 2], [3, 4]⟩


/-- An engine that returns its input: the ciphertext is the plaintext. -/
def identityEngine : Engine :=
  ⟨fun plaintext _ => .returned plaintext, fun ciphertext _ => .returned ciphertext⟩

theorem CppVectorToJs_eq (v : CppVector) :
    CppVectorToJs v = ⟨TypedArrayType.napi_uint8_array, v, 0, v.length⟩ := by
  simp [CppVectorToJs, Uint8ArrayNew, TypedArray.storeAtData, TypedArray.Data, memcpy]

theorem take_drop_eq_range_map (buf : List Nat) (off n : Nat) (h : off + n ≤ buf.length) :
    (buf.drop off).take n = (List.range n).map (fun i => buf.getD (off + i) 0) := by
  apply List.ext_getElem
  · simp; omega
  · intro i h1 h2
    simp at h1 h2
    simp [List.getElem_take, List.getD_eq_getElem?_getD]
    rw [List.getElem?_eq_getElem (by omega)]
    simp

theorem JsUint8ArrayToCpp_eq_contents (a : TypedArray) (h : a.InBounds) :
    JsUint8ArrayToCpp a = a.contents := by
  unfold TypedArray.InBounds at h
  simp only [JsUint8ArrayToCpp, TypedArray.contents, TypedArray.Data]
  exact take_drop_eq_range_map _ _ _ h

theorem contents_length (a : TypedArray) : a.contents.length = a.ByteLength := by
  simp [TypedArray.contents]

theorem CppVectorToJs_inBounds (v : CppVector) : (CppVectorToJs v).InBounds := by
  simp [CppVectorToJs_eq, TypedArray.InBounds, TypedArray.ByteLength,
    TypedArrayType.elementSize]

theorem JsUint8ArrayToCpp_CppVectorToJs (v : CppVector) :
    JsUint8ArrayToCpp (CppVectorToJs v) = v := by
  simp [CppVectorToJs_eq, JsUint8ArrayToCpp, TypedArray.Data, TypedArray.ByteLength,
    TypedArrayType.elementSize]

theorem isString_iff (v : JsValue) : v.IsString = true ↔ ∃ s, v = JsValue.string s := by
  cases v <;> simp [JsValue.IsString]

theorem isTypedArray_iff (v : JsValue) :
    v.IsTypedArray = true ↔ ∃ a, v = JsValue.typedArray a := by
  cases v <;> simp [JsValue.IsTypedArray]

theorem errorNew_ne_typeErrorNew (m n : CppString) : ErrorNew m ≠ TypeErrorNew n := by
  simp [ErrorNew, TypeErrorNew]

theorem encryptCatch_ne_typeErrorNew (t : Thrown) (n : CppString) :
    EncryptCatch t ≠ TypeErrorNew n := by
  cases t <;> exact errorNew_ne_typeErrorNew _ _

theorem decryptCatch_ne_typeErrorNew (t : Thrown) (n : CppString) :
    DecryptCatch t ≠ TypeErrorNew n := by
  cases t <;> exact errorNew_ne_typeErrorNew _ _

theorem Encrypt_of_rejects (eng : Engine) (info : CallbackInfo) (h : EncryptRejects info = true) :
    Encrypt eng info =
      ⟨some (TypeErrorNew (cstr "Expected two strings (plaintext, password)")), .null, []⟩ := by
  simp [Encrypt, EncryptTry, h]

theorem EncryptRejects_eq_false (info : CallbackInfo) (h : EncryptRejects info = false) :
    ∃ P W rest, info = JsValue.string P :: JsValue.string W :: rest := by
  match info with
  | [] => simp [EncryptRejects, CallbackInfo.Length] at h
  | [_] => simp [EncryptRejects, CallbackInfo.Length] at h
  | a :: b :: rest =>
    simp [EncryptRejects, CallbackInfo.Length, CallbackInfo.at] at h
    obtain ⟨P, hP⟩ := (isString_iff a).1 h.1
    obtain ⟨W, hW⟩ := (isString_iff b).1 h.2
    exact ⟨P, W, rest, by rw [hP, hW]⟩

theorem EncryptRejects_strings (P W : JsString) (rest : List JsValue) :
    EncryptRejects (JsValue.string P :: JsValue.string W :: rest) = false := by
  simp [EncryptRejects, CallbackInfo.Length, CallbackInfo.at, JsValue.IsString]

theorem Encrypt_strings (eng : Engine) (P W : JsString) (rest : List JsValue) :
    Encrypt eng (JsValue.string P :: JsValue.string W :: rest) =
      match eng.deimosCipherEncrypt (Utf8Value P) (Utf8Value W) with
      | .returned v =>
        ⟨none, .typedArray (CppVectorToJs v), [.encrypt (Utf8Value P) (Utf8Value W)]⟩
      | .threw t =>
        ⟨some (EncryptCatch t), .null, [.encrypt (Utf8Value P) (Utf8Value W)]⟩ := by
  simp only [Encrypt, EncryptTry, EncryptRejects_strings, CallbackInfo.at, List.getD_cons_zero,
    List.getD_cons_succ, JsStringToCpp]
  rcases h : eng.deimosCipherEncrypt (Utf8Value P) (Utf8Value W) with v | t <;> simp

theorem Decrypt_of_rejects (eng : Engine) (info : CallbackInfo) (h : DecryptRejects info = true) :
    Decrypt eng info =
      ⟨some (TypeErrorNew (cstr "Expected (ciphertext Uint8Array, password string)")), .null,
        []⟩ := by
  simp [Decrypt, DecryptTry, h]

theorem DecryptRejects_eq_false (info : CallbackInfo) (h : DecryptRejects info = false) :
    ∃ a W rest, info = JsValue.typedArray a :: JsValue.string W :: rest ∧
      a.type = TypedArrayType.napi_uint8_array := by
  match info with
  | [] => simp [DecryptRejects, CallbackInfo.Length] at h
  | [_] => simp [DecryptRejects, CallbackInfo.Length] at h
  | a :: b :: rest =>
    simp [DecryptRejects, CallbackInfo.Length, CallbackInfo.at] at h
    obtain ⟨⟨h1, h2⟩, h3⟩ := h
    obtain ⟨arr, ha⟩ := (isTypedArray_iff a).1 h1
    obtain ⟨W, hW⟩ := (isString_iff b).1 h3
    subst ha hW
    exact ⟨arr, W, rest, rfl, by simpa [JsValue.TypedArrayType] using h2⟩

theorem DecryptRejects_uint8 (a : TypedArray) (W : JsString) (rest : List JsValue)
    (ha : a.type = TypedArrayType.napi_uint8_array) :
    DecryptRejects (JsValue.typedArray a :: JsValue.string W :: rest) = false := by
  simp [DecryptRejects, CallbackInfo.Length, CallbackInfo.at, JsValue.IsString,
    JsValue.IsTypedArray, JsValue.TypedArrayType, ha]

theorem Decrypt_uint8 (eng : Engine) (a : TypedArray) (W : JsString) (rest : List JsValue)
    (ha : a.type = TypedArrayType.napi_uint8_array) :
    Decrypt eng (JsValue.typedArray a :: JsValue.string W :: rest) =
      match eng.deimosCipherDecrypt (JsUint8ArrayToCpp a) (Utf8Value W) with
      | .returned s =>
        match StringNew s with
        | .returned str =>
          ⟨none, .string str, [.decrypt (JsUint8ArrayToCpp a) (Utf8Value W)]⟩
        | .threw t =>
          ⟨some (DecryptCatch t), .null, [.decrypt (JsUint8ArrayToCpp a) (Utf8Value W)]⟩
      | .threw t =>
        ⟨some (DecryptCatch t), .null, [.decrypt (JsUint8ArrayToCpp a) (Utf8Value W)]⟩ := by
  simp only [Decrypt, DecryptTry, DecryptRejects_uint8 _ _ _ ha, CallbackInfo.at,
    List.getD_cons_zero, List.getD_cons_succ, JsStringToCpp, AsUint8Array]
  rcases h : eng.deimosCipherDecrypt (JsUint8ArrayToCpp a) (Utf8Value W) with v | t
  · simp only []
    rcases h2 : StringNew v with str | t <;> simp
  · simp

theorem StringNew_of_le (s : CppString) (h : s.length ≤ kMaxLength) :
    StringNew s = .returned (NewFromUtf8 s) := by
  have h2 : ¬ INT_MAX < s.length := by
    unfold kMaxLength at h
    unfold INT_MAX
    omega
  simp only [StringNew, if_neg h2, if_neg (Nat.not_lt.2 h)]

theorem StringNew_of_gt (s : CppString) (h : kMaxLength < s.length) (h2 : s.length ≤ INT_MAX) :
    StringNew s = .threw (.std_exception (cstr "Unknown failure")) := by
  simp only [StringNew, if_neg (Nat.not_lt.2 h2), if_pos h]

theorem StringNew_threw_of_gt (s : CppString) (h : kMaxLength < s.length) :
    StringNew s = .threw (.std_exception (cstr "Unknown failure")) ∨
      StringNew s = .threw (.std_exception (cstr "Invalid argument")) := by
  by_cases h2 : INT_MAX < s.length
  · exact Or.inr (by simp only [StringNew, if_pos h2])
  · exact Or.inl (StringNew_of_gt s h (Nat.not_lt.1 h2))

theorem StringNew_returned (s : CppString) (str : JsString) (h : StringNew s = .returned str) :
    s.length ≤ kMaxLength ∧ str = NewFromUtf8 s := by
  unfold StringNew at h
  split_ifs at h with h1 h2
  · exact ⟨Nat.not_lt.1 h2, (CallResult.returned.inj h).symm⟩

theorem Get_Set_self (o : JsObject) (k : JsString) (v : JsValue) : (o.Set k v).Get k = some v := by
  induction o with
  | nil => simp [JsObject.Set, JsObject.Get]
  | cons p rest ih =>
    obtain ⟨k1, v1⟩ := p
    by_cases h : k1 = k <;> simp [JsObject.Set, JsObject.Get, h, ih]

theorem Get_Set_other (o : JsObject) (k k2 : JsString) (v : JsValue) (h : k2 ≠ k) :
    (o.Set k v).Get k2 = o.Get k2 := by
  induction o with
  | nil => simp [JsObject.Set, JsObject.Get, Ne.symm h]
  | cons p rest ih =>
    obtain ⟨k1, v1⟩ := p
    by_cases h1 : k1 = k
    · subst h1
      simp [JsObject.Set, JsObject.Get, Ne.symm h]
    · by_cases h2 : k1 = k2
      · subst h2
        simp [JsObject.Set, JsObject.Get, h1]
      · simp [JsObject.Set, JsObject.Get, h1, h2, ih]

theorem Set_of_Get (o : JsObject) (k : JsString) (v : JsValue) (h : o.Get k = some v) :
    o.Set k v = o := by
  induction o with
  | nil => simp [JsObject.Get] at h
  | cons p rest ih =>
    obtain ⟨k1, v1⟩ := p
    by_cases h1 : k1 = k
    · simp [JsObject.Get, h1] at h
      simp [JsObject.Set, h1, h]
    · simp [JsObject.Get, h1] at h
      simp [JsObject.Set, h1, ih h]

theorem encrypt_key_ne_decrypt_key : StringNewC (cstr "encrypt") ≠ StringNewC (cstr "decrypt") := by
  decide

theorem NewFromUtf8_encode_bmp (c : Nat) (t : CppString) (hc : c < 0x10000)
    (hl : isLeadSurrogate c = false) (ht : isTrailSurrogate c = false) :
    NewFromUtf8 (utf8EncodeCodePoint c ++ t) = c :: NewFromUtf8 t := by
  simp only [isLeadSurrogate, isTrailSurrogate, Bool.and_eq_false_iff, decide_eq_false_iff_not]
    at hl ht
  unfold utf8EncodeCodePoint
  split_ifs with h1 h2
  · rw [List.singleton_append, NewFromUtf8.eq_def]
    simp only [if_pos h1]
  · have e1 : ¬ (0xC0 + c / 64 < 0x80) := by omega
    have e2 : 0xC2 ≤ 0xC0 + c / 64 ∧ 0xC0 + c / 64 ≤ 0xDF := by omega
    have e3 : isContinuation (0x80 + c % 64) = true := by
      simp [isContinuation]; omega
    have e4 : (0xC0 + c / 64 - 0xC0) * 64 + (0x80 + c % 64 - 0x80) = c := by omega
    rw [List.cons_append, List.singleton_append, NewFromUtf8.eq_def]
    simp only [if_neg e1, if_pos e2, e3, e4, if_true]
  · have e1 : ¬ (0xE0 + c / 4096 < 0x80) := by omega
    have e2 : ¬ (0xC2 ≤ 0xE0 + c / 4096 ∧ 0xE0 + c / 4096 ≤ 0xDF) := by omega
    have e3 : 0xE0 ≤ 0xE0 + c / 4096 ∧ 0xE0 + c / 4096 ≤ 0xEF := by omega
    have e4 : (if 0xE0 + c / 4096 = 0xE0 then 0xA0 else 0x80) ≤ 0x80 + c / 64 % 64 ∧
        0x80 + c / 64 % 64 ≤ (if 0xE0 + c / 4096 = 0xED then 0x9F else 0xBF) := by
      split_ifs <;> omega
    have e5 : isContinuation (0x80 + c % 64) = true := by
      simp [isContinuation]; omega
    have e6 : (0xE0 + c / 4096 - 0xE0) * 4096 + (0x80 + c / 64 % 64 - 0x80) * 64
        + (0x80 + c % 64 - 0x80) = c := by omega
    rw [List.cons_append, List.cons_append, List.singleton_append, NewFromUtf8.eq_def]
    simp only [if_neg e1, if_neg e2, if_pos e3, if_pos e4, e5, e6, if_true]

theorem NewFromUtf8_encode_pair (u v : Nat) (t : CppString)
    (hu : isLeadSurrogate u = true) (hv : isTrailSurrogate v = true) :
    NewFromUtf8 (utf8EncodeCodePoint (0x10000 + (u - 0xD800) * 1024 + (v - 0xDC00)) ++ t)
      = u :: v :: NewFromUtf8 t := by
  simp only [isLeadSurrogate, isTrailSurrogate, Bool.and_eq_true, decide_eq_true_eq] at hu hv
  obtain ⟨x, hx⟩ : ∃ x, x = 0x10000 + (u - 0xD800) * 1024 + (v - 0xDC00) := ⟨_, rfl⟩
  rw [← hx]
  have hx1 : 0x10000 ≤ x := by omega
  have hx2 : x < 0x110000 := by omega
  unfold utf8EncodeCodePoint
  rw [if_neg (by omega), if_neg (by omega), if_neg (by omega)]
  have e1 : ¬ (0xF0 + x / 262144 < 0x80) := by omega
  have e2 : ¬ (0xC2 ≤ 0xF0 + x / 262144 ∧ 0xF0 + x / 262144 ≤ 0xDF) := by omega
  have e3 : ¬ (0xE0 ≤ 0xF0 + x / 262144 ∧ 0xF0 + x / 262144 ≤ 0xEF) := by omega
  have e4 : 0xF0 ≤ 0xF0 + x / 262144 ∧ 0xF0 + x / 262144 ≤ 0xF4 := by omega
  have e5 : (if 0xF0 + x / 262144 = 0xF0 then 0x90 else 0x80) ≤ 0x80 + x / 4096 % 64 ∧
      0x80 + x / 4096 % 64 ≤ (if 0xF0 + x / 262144 = 0xF4 then 0x8F else 0xBF) := by
    split_ifs <;> omega
  have e6 : isContinuation (0x80 + x / 64 % 64) = true := by
    simp [isContinuation]; omega
  have e7 : isContinuation (0x80 + x % 64) = true := by
    simp [isContinuation]; omega
  have e8 : (0xF0 + x / 262144 - 0xF0) * 262144 + (0x80 + x / 4096 % 64 - 0x80) * 4096
      + (0x80 + x / 64 % 64 - 0x80) * 64 + (0x80 + x % 64 - 0x80) = x := by omega
  have e9 : utf16Units x = [u, v] := by
    unfold utf16Units
    rw [if_neg (by omega)]
    have a1 : 0xD800 + (x - 0x10000) / 1024 = u := by omega
    have a2 : 0xDC00 + (x - 0x10000) % 1024 = v := by omega
    rw [a1, a2]
  rw [List.cons_append, List.cons_append, List.cons_append, List.singleton_append,
    NewFromUtf8.eq_def]
  simp only [if_neg e1, if_neg e2, if_neg e3, if_pos e4, if_pos e5, e6, e7, e8, e9, if_true,
    List.cons_append, List.nil_append]

/-- A host string without unpaired surrogates survives the conversion to UTF-8
and back. -/
theorem NewFromUtf8_Utf8Value : ∀ (s : JsString), wellFormedUtf16 s = true →
    NewFromUtf8 (Utf8Value s) = s
  | [], _ => by simp [Utf8Value, NewFromUtf8]
  | [u], h => by
    cases hl : isLeadSurrogate u with
    | true => simp [wellFormedUtf16, hl] at h
    | false =>
      cases ht : isTrailSurrogate u with
      | true => simp [wellFormedUtf16, hl, ht] at h
      | false =>
        simp [wellFormedUtf16, hl, ht] at h
        simp only [Utf8Value, hl, ht, Bool.false_eq_true, if_false]
        rw [NewFromUtf8_encode_bmp u _ h hl ht]
        simp [NewFromUtf8]
  | u :: v :: rest, h => by
    cases hl : isLeadSurrogate u with
    | true =>
      simp [wellFormedUtf16, hl] at h
      simp only [Utf8Value, hl, h.1, if_true]
      rw [NewFromUtf8_encode_pair u v _ hl h.1, NewFromUtf8_Utf8Value rest h.2]
    | false =>
      cases ht : isTrailSurrogate u with
      | true => simp [wellFormedUtf16, hl, ht] at h
      | false =>
        simp [wellFormedUtf16, hl, ht] at h
        simp only [Utf8Value, hl, ht, Bool.false_eq_true, if_false]
        rw [NewFromUtf8_encode_bmp u _ h.1 hl ht, NewFromUtf8_Utf8Value (v :: rest) h.2]

theorem CppVectorToJs_contents (v : CppVector) : (CppVectorToJs v).contents = v := by
  rw [← JsUint8ArrayToCpp_eq_contents _ (CppVectorToJs_inBounds v)]
  exact JsUint8ArrayToCpp_CppVectorToJs v

theorem Decrypt_returned_too_long (eng : Engine) (a : TypedArray) (W : JsString)
    (rest : List JsValue) (s : CppString) (ha : a.type = TypedArrayType.napi_uint8_array)
    (h : eng.deimosCipherDecrypt (JsUint8ArrayToCpp a) (Utf8Value W) = .returned s)
    (h1 : kMaxLength < s.length) (h2 : s.length ≤ INT_MAX) :
    Decrypt eng (JsValue.typedArray a :: JsValue.string W :: rest) =
      ⟨some (ErrorNew (cstr "Unknown failure")), .null,
        [.decrypt (JsUint8ArrayToCpp a) (Utf8Value W)]⟩ := by
  rw [Decrypt_uint8 eng a W rest ha, h]
  simp only []
  rw [StringNew_of_gt s h1 h2]
  rfl

theorem Decrypt_returned_fits (eng : Engine) (a : TypedArray) (W : JsString)
    (rest : List JsValue) (s : CppString) (ha : a.type = TypedArrayType.napi_uint8_array)
    (h : eng.deimosCipherDecrypt (JsUint8ArrayToCpp a) (Utf8Value W) = .returned s)
    (h1 : s.length ≤ kMaxLength) :
    Decrypt eng (JsValue.typedArray a :: JsValue.string W :: rest) =
      ⟨none, .string (NewFromUtf8 s), [.decrypt (JsUint8ArrayToCpp a) (Utf8Value W)]⟩ := by
  rw [Decrypt_uint8 eng a W rest ha, h]
  simp only []
  rw [StringNew_of_le s h1]

theorem Utf8Value_replicate_length (n : Nat) :
    (Utf8Value (List.replicate n 0xE9)).length = 2 * n := by
  induction n with
  | zero => rfl
  | succ n ih =>
    rw [List.replicate_succ, Utf8Value.eq_def]
    have e1 : isLeadSurrogate 0xE9 = false := by decide
    have e2 : isTrailSurrogate 0xE9 = false := by decide
    have e3 : utf8EncodeCodePoint 0xE9 = [0xC3, 0xA9] := by decide
    simp only [e1, e2, e3, Bool.false_eq_true, if_false, List.length_append, ih,
      List.length_cons, List.length_nil]
    omega

theorem wellFormedUtf16_replicate (n : Nat) : wellFormedUtf16 (List.replicate n 0xE9) = true := by
  induction n with
  | zero => rfl
  | succ n ih =>
    rw [List.replicate_succ, wellFormedUtf16.eq_def]
    have e1 : isLeadSurrogate 0xE9 = false := by decide
    have e2 : isTrailSurrogate 0xE9 = false := by decide
    simp only [e1, e2, Bool.false_eq_true, if_false, ih, Bool.and_true]
    decide

/-! ## Round trip (C1) -/

theorem decode_encode (suite : CipherSuite) (f : EnvelopeFields)
    (hv : f.version = suite.version) (h1 : f.salt.length = suite.saltLen)
    (h2 : f.nonceA.length = suite.nonceALen) (h3 : f.nonceB.length = suite.nonceBLen)
    (h4 : f.tagA.length = suite.tagALen) (h5 : f.tagB.length = suite.tagBLen) :
    decode suite (encode f) = .ok f := by
  have hlen : ¬ ((encode f).length < suite.minSize) := by
    simp only [encode, CipherSuite.minSize, List.length_cons, List.length_append]
    omega
  simp only [decode, if_neg hlen]
  simp only [encode, List.headD_cons, hv, ne_eq, not_true_eq_false, if_false, List.drop_succ_cons,
    List.drop_zero, ← h1, ← h2, ← h3, ← h4, ← h5, List.take_left, List.drop_left]
  rw [← hv]

theorem engineDecrypt_engineEncrypt (suite : CipherSuite) (ent : Entropy)
    (hs : suite.Sound) (he : ent.Fits suite) (plaintext password : List Nat) :
    engineDecrypt suite (engineEncrypt suite ent plaintext password) password
      = .ok plaintext := by
  unfold engineDecrypt engineEncrypt
  simp only []
  rw [decode_encode suite _ rfl he.salt_length he.nonceA_length he.nonceB_length
    (hs.tagA_length _ _ _ _) (hs.tagB_length _ _ _ _)]
  simp only [hs.openB_sealB, hs.openA_sealA]

theorem sampleSuite_sound : sampleSuite.Sound := by
  have hx : ∀ (p : List Nat) (x : Nat),
      (p.map (fun b => b ^^^ x)).map (fun b => b ^^^ x) = p := by
    intro p x
    simp [List.map_map, Function.comp_def, Nat.xor_cancel_right]
  have ho : ∀ p k n ad,
      sampleOpen (sampleSeal p k n ad).1 k n (sampleSeal p k n ad).2 ad = some p := by
    intro p k n ad
    simp [sampleOpen, sampleSeal, hx]
  exact ⟨ho, ho, fun _ _ _ _ => rfl, fun _ _ _ _ => rfl⟩

theorem sampleEntropy_fits : sampleEntropy.Fits sampleSuite := ⟨rfl, rfl, rfl⟩

theorem specEngine_inverts (suite : CipherSuite) (ent : Entropy) (hs : suite.Sound)
    (he : ent.Fits suite) : (specEngine suite ent).Inverts := by
  intro plaintext password
  refine ⟨engineEncrypt suite ent plaintext password, rfl, ?_⟩
  simp only [specEngine, engineDecrypt_engineEncrypt suite ent hs he]

theorem Encrypt_of_inverts (eng : Engine) (hinv : eng.Inverts) (P W : JsString) :
    ∃ v, Encrypt eng [.string P, .string W] =
        ⟨none, .typedArray (CppVectorToJs v), [.encrypt (Utf8Value P) (Utf8Value W)]⟩ ∧
      eng.deimosCipherDecrypt (JsUint8ArrayToCpp (CppVectorToJs v)) (Utf8Value W) =
        .returned (Utf8Value P) := by
  obtain ⟨v, hv1, hv2⟩ := hinv (Utf8Value P) (Utf8Value W)
  refine ⟨v, ?_, ?_⟩
  · rw [Encrypt_strings, hv1]
  · rw [JsUint8ArrayToCpp_CppVectorToJs, hv2]

theorem Decrypt_Encrypt_too_long (eng : Engine) (hinv : eng.Inverts) (P W : JsString)
    (h1 : kMaxLength < (Utf8Value P).length) (h2 : (Utf8Value P).length ≤ INT_MAX) :
    (Decrypt eng [(Encrypt eng [.string P, .string W]).value, .string W]).pending =
        some (ErrorNew (cstr "Unknown failure")) ∧
      (Decrypt eng [(Encrypt eng [.string P, .string W]).value, .string W]).value = .null := by
  obtain ⟨v, hE, hD⟩ := Encrypt_of_inverts eng hinv P W
  rw [hE]
  simp only []
  rw [Decrypt_returned_too_long eng (CppVectorToJs v) W [] (Utf8Value P)
    (by simp [CppVectorToJs_eq]) hD h1 h2]
  exact ⟨rfl, rfl⟩

/-- C1, as stated, fails, in two ways. For the plaintext consisting of the
single code unit U+D800 (a surrogate without its pair), `Encrypt` hands the
engine the UTF-8 bytes of U+FFFD, the same bytes it hands over for the
plaintext U+FFFD, and decrypting the result with the same password returns the
string U+FFFD, not the plaintext. For the plaintext of 300000000 times "é",
well-formed and 600000000 bytes long in UTF-8, the engine returns the
plaintext bytes but `Decrypt` cannot make a host string of them: it raises the
Error "Unknown failure" and returns null. -/
theorem C1_round_trip_counterexample :
    (Utf8Value [0xD800] = Utf8Value [0xFFFD] ∧
      (Encrypt (specEngine sampleSuite sampleEntropy) [.string [0xD800], .string [0x70]]).pending
        = none ∧
      Decrypt (specEngine sampleSuite sampleEntropy)
        [(Encrypt (specEngine sampleSuite sampleEntropy)
          [.string [0xD800], .string [0x70]]).value, .string [0x70]] =
        ⟨none, .string [0xFFFD],
          [.decrypt [1, 90, 1, 2, 3, 4, 230, 62, 238, 190, 188] [0x70]]⟩ ∧
      (Decrypt (specEngine sampleSuite sampleEntropy)
        [(Encrypt (specEngine sampleSuite sampleEntropy)
          [.string [0xD800], .string [0x70]]).value, .string [0x70]]).value
        ≠ .string [0xD800]) ∧
    (wellFormedUtf16 (List.replicate 300000000 0xE9) = true ∧
      (Utf8Value (List.replicate 300000000 0xE9)).length = 600000000 ∧
      (Decrypt (specEngine sampleSuite sampleEntropy)
        [(Encrypt (specEngine sampleSuite sampleEntropy)
          [.string (List.replicate 300000000 0xE9), .string [0x70]]).value,
            .string [0x70]]).pending = some (ErrorNew (cstr "Unknown failure")) ∧
      (Decrypt (specEngine sampleSuite sampleEntropy)
        [(Encrypt (specEngine sampleSuite sampleEntropy)
          [.string (List.replicate 300000000 0xE9), .string [0x70]]).value,
            .string [0x70]]).value = .null) := by
  have hlen : (Utf8Value (List.replicate 300000000 0xE9)).length = 600000000 :=
    Utf8Value_replicate_length 300000000
  have hbig := Decrypt_Encrypt_too_long (specEngine sampleSuite sampleEntropy)
    (specEngine_inverts sampleSuite sampleEntropy sampleSuite_sound sampleEntropy_fits)
    (List.replicate 300000000 0xE9) [0x70]
    (by rw [hlen]; decide) (by rw [hlen]; decide)
  exact ⟨by decide, wellFormedUtf16_replicate 300000000, hlen, hbig.1, hbig.2⟩

/-- C1, amended: with an engine whose decrypt inverts its encrypt on bytes, for
every plaintext string `P` without unpaired surrogates whose UTF-8 form is at
most `kMaxLength` (536870888) bytes long, and every password string `W`,
`Encrypt` succeeds and `Decrypt` of its result with `W` raises nothing and
returns exactly `P`. -/
theorem C1_round_trip_well_formed (eng : Engine) (hinv : eng.Inverts) (P W : JsString)
    (hP : wellFormedUtf16 P = true) (hlen : (Utf8Value P).length ≤ kMaxLength) :
    (Encrypt eng [.string P, .string W]).pending = none ∧
    (Decrypt eng [(Encrypt eng [.string P, .string W]).value, .string W]).pending = none ∧
    (Decrypt eng [(Encrypt eng [.string P, .string W]).value, .string W]).value
      = .string P := by
  obtain ⟨v, hE, hD⟩ := Encrypt_of_inverts eng hinv P W
  have hR := Decrypt_returned_fits eng (CppVectorToJs v) W [] (Utf8Value P)
    (by simp [CppVectorToJs_eq]) hD hlen
  rw [NewFromUtf8_Utf8Value P hP] at hR
  rw [hE]
  exact ⟨rfl, congrArg CallOutcome.pending hR, congrArg CallOutcome.value hR⟩

/-- C1 amended, at the plaintext "hé😀" (with a surrogate pair) and the
password "p", with the engine the specification designs over the sample
suite. -/
theorem C1_round_trip_well_formed_witness :
    (specEngine sampleSuite sampleEntropy).Inverts ∧
    wellFormedUtf16 [0x68, 0xE9, 0xD83D, 0xDE00] = true ∧
    (Utf8Value [0x68, 0xE9, 0xD83D, 0xDE00]).length ≤ kMaxLength ∧
    (Decrypt (specEngine sampleSuite sampleEntropy)
      [(Encrypt (specEngine sampleSuite sampleEntropy)
        [.string [0x68, 0xE9, 0xD83D, 0xDE00], .string [0x70]]).value, .string [0x70]]).value
      = .string [0x68, 0xE9, 0xD83D, 0xDE00] :=
  ⟨specEngine_inverts sampleSuite sampleEntropy sampleSuite_sound sampleEntropy_fits,
    by decide, by decide,
    (C1_round_trip_well_formed (specEngine sampleSuite sampleEntropy)
      (specEngine_inverts sampleSuite sampleEntropy sampleSuite_sound sampleEntropy_fits)
      [0x68, 0xE9, 0xD83D, 0xDE00] [0x70] (by decide) (by decide)).2.2⟩

/-! ## Byte-buffer marshalling (C10) -/

/-- C10: marshalling a byte vector into a host `Uint8Array` and back returns the
vector, for every vector, the empty one included; the array has byte length
`|v|` and shows the bytes of `v`; and when the value `Encrypt` returned is
passed as first argument of `Decrypt`, the engine's decrypt routine receives
exactly the bytes the engine's encrypt routine produced. -/
theorem C10_marshalling_lossless (v : CppVector) :
    JsUint8ArrayToCpp (CppVectorToJs v) = v ∧
    (CppVectorToJs v).ByteLength = v.length ∧
    (CppVectorToJs v).contents = v ∧
    ∀ (eng eng2 : Engine) (P W W2 : JsString) (rest rest2 : List JsValue),
      eng.deimosCipherEncrypt (Utf8Value P) (Utf8Value W) = .returned v →
      (Decrypt eng2 ((Encrypt eng (.string P :: .string W :: rest)).value :: .string W2 ::
        rest2)).engineCalls = [.decrypt v (Utf8Value W2)] := by
  have hlen : (CppVectorToJs v).ByteLength = v.length := by
    simp [CppVectorToJs_eq, TypedArray.ByteLength, TypedArrayType.elementSize]
  refine ⟨JsUint8ArrayToCpp_CppVectorToJs v, hlen, ?_, ?_⟩
  · rw [← JsUint8ArrayToCpp_eq_contents _ (CppVectorToJs_inBounds v)]
    exact JsUint8ArrayToCpp_CppVectorToJs v
  · intro eng eng2 P W W2 rest rest2 h
    rw [Encrypt_strings, h]
    simp only []
    rw [Decrypt_uint8 eng2 (CppVectorToJs v) W2 rest2 (by simp [CppVectorToJs_eq]),
      JsUint8ArrayToCpp_CppVectorToJs]
    cases eng2.deimosCipherDecrypt v (Utf8Value W2) with
    | threw t => rfl
    | returned s =>
      simp only []
      cases StringNew s <;> rfl

/-- C10 at the vector `[1, 0, 127]` and at the empty vector, with the identity
engine. -/
theorem C10_marshalling_lossless_witness :
    JsUint8ArrayToCpp (CppVectorToJs [1, 0, 127]) = [1, 0, 127] ∧
    JsUint8ArrayToCpp (CppVectorToJs []) = [] ∧
    (Decrypt identityEngine ((Encrypt identityEngine [.string [1, 0, 127], .string [0x70]]).value
      :: .string [0x71] :: [])).engineCalls = [.decrypt [1, 0, 127] (Utf8Value [0x71])] :=
  ⟨(C10_marshalling_lossless [1, 0, 127]).1, (C10_marshalling_lossless []).1,
    (C10_marshalling_lossless [1, 0, 127]).2.2.2 identityEngine identityEngine [1, 0, 127]
      [0x70] [0x71] [] [] rfl⟩

/-! ## Delegation (C2, C3) -/

/-- C2: when the first two arguments are strings `P` and `W` and the engine's
encrypt routine returns the byte vector `v` for them, `Encrypt` leaves no host
exception pending and returns a `Uint8Array` of length `|v|` whose bytes are
those of `v`; arguments after the second play no part. -/
theorem C2_encrypt_delegates (eng : Engine) (P W : JsString) (rest : List JsValue)
    (v : CppVector)
    (h : eng.deimosCipherEncrypt (Utf8Value P) (Utf8Value W) = .returned v) :
    Encrypt eng (.string P :: .string W :: rest) =
      ⟨none, .typedArray (CppVectorToJs v), [.encrypt (Utf8Value P) (Utf8Value W)]⟩ ∧
    (CppVectorToJs v).type = TypedArrayType.napi_uint8_array ∧
    (CppVectorToJs v).length = v.length ∧
    (CppVectorToJs v).ByteLength = v.length ∧
    (CppVectorToJs v).contents = v := by
  refine ⟨by rw [Encrypt_strings, h], by simp [CppVectorToJs_eq], by simp [CppVectorToJs_eq],
    by simp [CppVectorToJs_eq, TypedArray.ByteLength, TypedArrayType.elementSize], ?_⟩
  rw [← JsUint8ArrayToCpp_eq_contents _ (CppVectorToJs_inBounds v)]
  exact JsUint8ArrayToCpp_CppVectorToJs v

/-- C2 at the call `encrypt("hi", "p", null)` with the identity engine. -/
theorem C2_encrypt_delegates_witness :
    identityEngine.deimosCipherEncrypt (Utf8Value [0x68, 0x69]) (Utf8Value [0x70])
      = .returned [0x68, 0x69] ∧
    (Encrypt identityEngine [.string [0x68, 0x69], .string [0x70], .null] =
      ⟨none, .typedArray (CppVectorToJs [0x68, 0x69]),
        [.encrypt (Utf8Value [0x68, 0x69]) (Utf8Value [0x70])]⟩ ∧
    (CppVectorToJs [0x68, 0x69]).type = TypedArrayType.napi_uint8_array ∧
    (CppVectorToJs [0x68, 0x69]).length = 2 ∧
    (CppVectorToJs [0x68, 0x69]).ByteLength = 2 ∧
    (CppVectorToJs [0x68, 0x69]).contents = [0x68, 0x69]) :=
  ⟨rfl, C2_encrypt_delegates identityEngine [0x68, 0x69] [0x70] [.null] [0x68, 0x69] rfl⟩

/-- C3, as stated, fails: the engine returns a string of 536870889 bytes, one
more than the longest host string, without throwing; `Decrypt` cannot make a
host string of it, raises the Error "Unknown failure" and returns null. -/
theorem C3_decrypt_delegates_counterexample :
    (CppVectorToJs (List.replicate 536870889 0x61)).type = TypedArrayType.napi_uint8_array ∧
    identityEngine.deimosCipherDecrypt (CppVectorToJs (List.replicate 536870889 0x61)).contents
      (Utf8Value []) = .returned (List.replicate 536870889 0x61) ∧
    (Decrypt identityEngine
      [.typedArray (CppVectorToJs (List.replicate 536870889 0x61)), .string []]).pending =
        some (ErrorNew (cstr "Unknown failure")) ∧
    (Decrypt identityEngine
      [.typedArray (CppVectorToJs (List.replicate 536870889 0x61)), .string []]).value =
        .null := by
  have ht : (CppVectorToJs (List.replicate 536870889 0x61)).type =
      TypedArrayType.napi_uint8_array := by
    rw [CppVectorToJs_eq]
  have hd : identityEngine.deimosCipherDecrypt
      (JsUint8ArrayToCpp (CppVectorToJs (List.replicate 536870889 0x61))) (Utf8Value []) =
      .returned (List.replicate 536870889 0x61) := by
    rw [JsUint8ArrayToCpp_CppVectorToJs]
    rfl
  have hD := Decrypt_returned_too_long identityEngine
    (CppVectorToJs (List.replicate 536870889 0x61)) [] [] (List.replicate 536870889 0x61) ht hd
    (by rw [List.length_replicate]; decide) (by rw [List.length_replicate]; decide)
  refine ⟨ht, ?_, congrArg CallOutcome.pending hD, congrArg CallOutcome.value hD⟩
  rw [CppVectorToJs_contents]
  rfl

/-- C3, amended: when the first argument is a `Uint8Array` showing the bytes
`c`, the second a string `W`, and the engine's decrypt routine returns for
them a string `s` of at most `kMaxLength` (536870888) bytes, `Decrypt` leaves
no host exception pending and returns the host string made from `s` (the text
itself, when `s` is the UTF-8 form of a text without unpaired surrogates); the
vector the engine received has the array's byte length and contents. -/
theorem C3_decrypt_delegates (eng : Engine) (a : TypedArray) (W : JsString)
    (rest : List JsValue) (s : CppString)
    (ha : a.type = TypedArrayType.napi_uint8_array) (hb : a.InBounds)
    (h : eng.deimosCipherDecrypt a.contents (Utf8Value W) = .returned s)
    (hlen : s.length ≤ kMaxLength) :
    Decrypt eng (.typedArray a :: .string W :: rest) =
      ⟨none, .string (NewFromUtf8 s), [.decrypt a.contents (Utf8Value W)]⟩ ∧
    a.contents.length = a.ByteLength ∧
    (∀ text : JsString, wellFormedUtf16 text = true → s = Utf8Value text →
      NewFromUtf8 s = text) := by
  refine ⟨?_, contents_length a, fun text hw hs => by rw [hs, NewFromUtf8_Utf8Value text hw]⟩
  rw [← JsUint8ArrayToCpp_eq_contents a hb] at h ⊢
  exact Decrypt_returned_fits eng a W rest s ha h hlen

/-- C3 amended, at a two-byte view into a four-byte buffer, with the identity
engine. -/
theorem C3_decrypt_delegates_witness :
    (TypedArray.mk TypedArrayType.napi_uint8_array [9, 0x68, 0x69, 7] 1 2).InBounds ∧
    [0x68, 0x69].length ≤ kMaxLength ∧
    Decrypt identityEngine
      [.typedArray ⟨TypedArrayType.napi_uint8_array, [9, 0x68, 0x69, 7], 1, 2⟩, .string [0x70]] =
      ⟨none, .string [0x68, 0x69], [.decrypt [0x68, 0x69] [0x70]]⟩ :=
  ⟨by decide, by decide,
    (C3_decrypt_delegates identityEngine ⟨TypedArrayType.napi_uint8_array, [9, 0x68, 0x69, 7], 1, 2⟩
      [0x70] [] [0x68, 0x69] rfl (by decide) rfl (by decide)).1⟩

/-! ## Argument validation (C4, C5) -/

/-- C4: `Encrypt` raises the TypeError "Expected two strings (plaintext,
password)" and returns null exactly when fewer than two arguments are given or
one of the first two is not a string; the engine is then not called; and two
empty strings pass the check and reach the engine. -/
theorem C4_encrypt_validation (eng : Engine) (info : CallbackInfo) :
    (((Encrypt eng info).pending =
          some (TypeErrorNew (cstr "Expected two strings (plaintext, password)")) ∧
        (Encrypt eng info).value = .null) ↔
      (info.Length < 2 ∨ (info.at 0).IsString = false ∨ (info.at 1).IsString = false)) ∧
    ((info.Length < 2 ∨ (info.at 0).IsString = false ∨ (info.at 1).IsString = false) →
      (Encrypt eng info).engineCalls = []) ∧
    (Encrypt eng [.string [], .string []]).engineCalls = [.encrypt [] []] ∧
    (Encrypt eng [.string [], .string []]).pending ≠
      some (TypeErrorNew (cstr "Expected two strings (plaintext, password)")) := by
  have hrej : (info.Length < 2 ∨ (info.at 0).IsString = false ∨ (info.at 1).IsString = false) ↔
      EncryptRejects info = true := by
    simp [EncryptRejects, or_assoc]
  have hempty : Encrypt eng [.string [], .string []] =
      match eng.deimosCipherEncrypt [] [] with
      | .returned v => ⟨none, .typedArray (CppVectorToJs v), [.encrypt [] []]⟩
      | .threw t => ⟨some (EncryptCatch t), .null, [.encrypt [] []]⟩ :=
    Encrypt_strings eng [] [] []
  refine ⟨⟨?_, ?_⟩, ?_, ?_, ?_⟩
  · intro hp
    rw [hrej]
    by_contra hn
    obtain ⟨P, W, rest, rfl⟩ := EncryptRejects_eq_false info (by simpa using hn)
    rw [Encrypt_strings] at hp
    cases hr : eng.deimosCipherEncrypt (Utf8Value P) (Utf8Value W) with
    | returned v => rw [hr] at hp; simp at hp
    | threw t =>
      rw [hr] at hp
      exact encryptCatch_ne_typeErrorNew t _ (Option.some.inj hp.1)
  · intro hc
    rw [Encrypt_of_rejects eng info (hrej.1 hc)]
    exact ⟨rfl, rfl⟩
  · intro hc
    rw [Encrypt_of_rejects eng info (hrej.1 hc)]
  · rw [hempty]
    cases eng.deimosCipherEncrypt [] [] <;> rfl
  · rw [hempty]
    cases hr : eng.deimosCipherEncrypt [] [] with
    | returned v => simp
    | threw t =>
      intro hp
      exact encryptCatch_ne_typeErrorNew t _ (Option.some.inj hp)

/-- C4 at the calls `encrypt("a")` and `encrypt(1, "a")`. -/
theorem C4_encrypt_validation_witness :
    (Encrypt identityEngine [.string [0x61]]).engineCalls = [] ∧
    (Encrypt identityEngine [.number 1, .string [0x61]]).pending =
      some (TypeErrorNew (cstr "Expected two strings (plaintext, password)")) :=
  ⟨(C4_encrypt_validation identityEngine [.string [0x61]]).2.1 (Or.inl (by decide)),
    ((C4_encrypt_validation identityEngine [.number 1, .string [0x61]]).1.2
      (Or.inr (Or.inl rfl))).1⟩

/-- C5: `Decrypt` raises the TypeError "Expected (ciphertext Uint8Array,
password string)" and returns null exactly when fewer than two arguments are
given, the first is not a typed array or is one of another element type than
uint8, or the second is not a string; the engine is then not called; and an
empty `Uint8Array` passes the check and reaches the engine. -/
theorem C5_decrypt_validation (eng : Engine) (info : CallbackInfo) :
    (((Decrypt eng info).pending =
          some (TypeErrorNew (cstr "Expected (ciphertext Uint8Array, password string)")) ∧
        (Decrypt eng info).value = .null) ↔
      (info.Length < 2 ∨ (info.at 0).IsTypedArray = false ∨
        (∃ a, info.at 0 = .typedArray a ∧ a.type ≠ TypedArrayType.napi_uint8_array) ∨
        (info.at 1).IsString = false)) ∧
    ((info.Length < 2 ∨ (info.at 0).IsTypedArray = false ∨
        (∃ a, info.at 0 = .typedArray a ∧ a.type ≠ TypedArrayType.napi_uint8_array) ∨
        (info.at 1).IsString = false) →
      (Decrypt eng info).engineCalls = []) ∧
    ∀ W : JsString,
      (Decrypt eng [.typedArray (Uint8ArrayNew 0), .string W]).engineCalls =
        [.decrypt [] (Utf8Value W)] ∧
      (Decrypt eng [.typedArray (Uint8ArrayNew 0), .string W]).pending ≠
        some (TypeErrorNew (cstr "Expected (ciphertext Uint8Array, password string)")) := by
  have hrej : (info.Length < 2 ∨ (info.at 0).IsTypedArray = false ∨
        (∃ a, info.at 0 = .typedArray a ∧ a.type ≠ TypedArrayType.napi_uint8_array) ∨
        (info.at 1).IsString = false) ↔ DecryptRejects info = true := by
    simp only [DecryptRejects, Bool.or_eq_true, decide_eq_true_eq, Bool.not_eq_true',
      bne_iff_ne, ne_eq, or_assoc]
    cases h0 : info.at 0 <;> simp [JsValue.IsTypedArray, JsValue.TypedArrayType]
  have hempty : ∀ W : JsString, Decrypt eng [.typedArray (Uint8ArrayNew 0), .string W] =
      match eng.deimosCipherDecrypt [] (Utf8Value W) with
      | .returned s =>
        match StringNew s with
        | .returned str => ⟨none, .string str, [.decrypt [] (Utf8Value W)]⟩
        | .threw t => ⟨some (DecryptCatch t), .null, [.decrypt [] (Utf8Value W)]⟩
      | .threw t => ⟨some (DecryptCatch t), .null, [.decrypt [] (Utf8Value W)]⟩ :=
    fun W => Decrypt_uint8 eng (Uint8ArrayNew 0) W [] rfl
  refine ⟨⟨?_, ?_⟩, ?_, ?_⟩
  · intro hp
    rw [hrej]
    by_contra hn
    obtain ⟨a, W, rest, rfl, ha⟩ := DecryptRejects_eq_false info (by simpa using hn)
    rw [Decrypt_uint8 eng a W rest ha] at hp
    cases hr : eng.deimosCipherDecrypt (JsUint8ArrayToCpp a) (Utf8Value W) with
    | returned v =>
      rw [hr] at hp
      simp only [] at hp
      cases hs : StringNew v with
      | returned str => rw [hs] at hp; simp at hp
      | threw t =>
        rw [hs] at hp
        exact decryptCatch_ne_typeErrorNew t _ (Option.some.inj hp.1)
    | threw t =>
      rw [hr] at hp
      exact decryptCatch_ne_typeErrorNew t _ (Option.some.inj hp.1)
  · intro hc
    rw [Decrypt_of_rejects eng info (hrej.1 hc)]
    exact ⟨rfl, rfl⟩
  · intro hc
    rw [Decrypt_of_rejects eng info (hrej.1 hc)]
  · intro W
    rw [hempty W]
    cases hr : eng.deimosCipherDecrypt [] (Utf8Value W) with
    | returned v =>
      simp only []
      cases hs : StringNew v with
      | returned str => simp
      | threw t =>
        refine ⟨rfl, ?_⟩
        intro hp
        exact decryptCatch_ne_typeErrorNew t _ (Option.some.inj hp)
    | threw t =>
      refine ⟨rfl, ?_⟩
      intro hp
      exact decryptCatch_ne_typeErrorNew t _ (Option.some.inj hp)

/-- C5 at the calls `decrypt(new Int8Array(1), "a")` and `decrypt("a", "a")`. -/
theorem C5_decrypt_validation_witness :
    (Decrypt identityEngine
      [.typedArray ⟨TypedArrayType.napi_int8_array, [5], 0, 1⟩, .string [0x61]]).pending =
      some (TypeErrorNew (cstr "Expected (ciphertext Uint8Array, password string)")) ∧
    (Decrypt identityEngine [.string [0x61], .string [0x61]]).engineCalls = [] :=
  ⟨((C5_decrypt_validation identityEngine
      [.typedArray ⟨TypedArrayType.napi_int8_array, [5], 0, 1⟩, .string [0x61]]).1.2
      (Or.inr (Or.inr (Or.inl ⟨_, rfl, by decide⟩)))).1,
    (C5_decrypt_validation identityEngine [.string [0x61], .string [0x61]]).2.1
      (Or.inr (Or.inl rfl))⟩

/-! ## Error translation and atomicity (C7, C8, C6) -/

/-- C8: every call of `Encrypt` ends in exactly one of two ways, either with no
host exception pending and a `Uint8Array` as value, or with a host exception
pending and null as value; the same holds for `Decrypt` with a string as
value. -/
theorem C8_call_atomic (eng : Engine) (info : CallbackInfo) :
    ((((Encrypt eng info).pending = none ∧
          ∃ a, (Encrypt eng info).value = .typedArray a ∧
            a.type = TypedArrayType.napi_uint8_array) ∨
        ((Encrypt eng info).pending ≠ none ∧ (Encrypt eng info).value = .null)) ∧
      ¬ (((Encrypt eng info).pending = none ∧
          ∃ a, (Encrypt eng info).value = .typedArray a ∧
            a.type = TypedArrayType.napi_uint8_array) ∧
        ((Encrypt eng info).pending ≠ none ∧ (Encrypt eng info).value = .null))) ∧
    ((((Decrypt eng info).pending = none ∧ ∃ s, (Decrypt eng info).value = .string s) ∨
        ((Decrypt eng info).pending ≠ none ∧ (Decrypt eng info).value = .null)) ∧
      ¬ (((Decrypt eng info).pending = none ∧ ∃ s, (Decrypt eng info).value = .string s) ∧
        ((Decrypt eng info).pending ≠ none ∧ (Decrypt eng info).value = .null))) := by
  refine ⟨⟨?_, fun h => h.2.1 h.1.1⟩, ⟨?_, fun h => h.2.1 h.1.1⟩⟩
  · cases hr : EncryptRejects info with
    | true =>
      rw [Encrypt_of_rejects eng info hr]
      exact Or.inr ⟨by simp, rfl⟩
    | false =>
      obtain ⟨P, W, rest, rfl⟩ := EncryptRejects_eq_false info hr
      rw [Encrypt_strings]
      cases eng.deimosCipherEncrypt (Utf8Value P) (Utf8Value W) with
      | returned v => exact Or.inl ⟨rfl, _, rfl, by simp [CppVectorToJs_eq]⟩
      | threw t => exact Or.inr ⟨by simp, rfl⟩
  · cases hr : DecryptRejects info with
    | true =>
      rw [Decrypt_of_rejects eng info hr]
      exact Or.inr ⟨by simp, rfl⟩
    | false =>
      obtain ⟨a, W, rest, rfl, ha⟩ := DecryptRejects_eq_false info hr
      rw [Decrypt_uint8 eng a W rest ha]
      cases eng.deimosCipherDecrypt (JsUint8ArrayToCpp a) (Utf8Value W) with
      | returned v =>
        simp only []
        cases StringNew v with
        | returned str => exact Or.inl ⟨rfl, _, rfl⟩
        | threw t => exact Or.inr ⟨by simp, rfl⟩
      | threw t => exact Or.inr ⟨by simp, rfl⟩

/-- C9: when `sodium_init()` returns a value other than -1, `Init` raises
nothing, initializes OpenSSL, and the exports object returned has "encrypt"
bound to `Encrypt`, "decrypt" bound to `Decrypt` and every other property as
before; running `Init` again on that object, with any successful return value,
changes nothing. When `sodium_init()` returns -1, `Init` raises the Error
"Failed to initialize libsodium", does not initialize OpenSSL and returns the
exports object as it was. -/
theorem C9_module_init (rc : Int) (exports : JsObject) :
    (rc ≠ -1 →
      (Init rc exports).pending = none ∧
      (Init rc exports).libraryCalls = [.sodium_init, .OpenSSL_add_all_algorithms] ∧
      (∀ k, (Init rc exports).exports.Get k =
        if k = StringNewC (cstr "decrypt") then some (.function .Decrypt)
        else if k = StringNewC (cstr "encrypt") then some (.function .Encrypt)
        else exports.Get k) ∧
      (∀ rc2 : Int, rc2 ≠ -1 → Init rc2 (Init rc exports).exports = Init rc exports)) ∧
    (rc = -1 →
      Init rc exports =
        ⟨some ⟨ErrorClass.Error, StringNewC (cstr "Failed to initialize libsodium")⟩, exports,
          [.sodium_init]⟩ ∧
      (∀ k, (Init rc exports).exports.Get k = exports.Get k) ∧
      LibraryCall.OpenSSL_add_all_algorithms ∉ (Init rc exports).libraryCalls) := by
  constructor
  · intro hrc
    have hget : ∀ k, ((exports.Set (StringNewC (cstr "encrypt")) (.function .Encrypt)).Set
          (StringNewC (cstr "decrypt")) (.function .Decrypt)).Get k =
        if k = StringNewC (cstr "decrypt") then some (.function .Decrypt)
        else if k = StringNewC (cstr "encrypt") then some (.function .Encrypt)
        else exports.Get k := by
      intro k
      by_cases hd : k = StringNewC (cstr "decrypt")
      · rw [if_pos hd, hd, Get_Set_self]
      · rw [if_neg hd, Get_Set_other _ _ _ _ hd]
        by_cases he : k = StringNewC (cstr "encrypt")
        · rw [if_pos he, he, Get_Set_self]
        · rw [if_neg he, Get_Set_other _ _ _ _ he]
    simp only [Init, if_neg hrc]
    refine ⟨trivial, trivial, hget, ?_⟩
    intro rc2 hrc2
    simp only [if_neg hrc2]
    have h1 := hget (StringNewC (cstr "encrypt"))
    rw [if_neg encrypt_key_ne_decrypt_key, if_pos rfl] at h1
    have h2 := hget (StringNewC (cstr "decrypt"))
    rw [if_pos rfl] at h2
    rw [Set_of_Get _ _ _ h1, Set_of_Get _ _ _ h2]
  · intro hrc
    subst hrc
    exact ⟨rfl, fun _ => rfl, by simp [Init]⟩

/-- C9 at first initialization (`sodium_init()` returns 0) followed by a second
one (it returns 1) on an empty exports object, and at a failed one. -/
theorem C9_module_init_witness :
    Init 1 (Init 0 []).exports = Init 0 [] ∧
    (Init 0 []).exports.Get (StringNewC (cstr "encrypt")) = some (.function .Encrypt) ∧
    Init (-1) [] =
      ⟨some ⟨ErrorClass.Error, StringNewC (cstr "Failed to initialize libsodium")⟩, [],
        [.sodium_init]⟩ :=
  ⟨((C9_module_init 0 []).1 (by decide)).2.2.2 1 (by decide),
    (((C9_module_init 0 []).1 (by decide)).2.2.1 (StringNewC (cstr "encrypt"))).trans
      (by decide),
    ((C9_module_init (-1) []).2 rfl).1⟩

end Deimos
